import Mathlib

/-!
# Verification of the vendor-report pipeline

A shallow embedding, in Lean 4, of the vendor fetch/normalize/export pipeline
implemented in `fetch_vendors.py` (with configuration loading in
`zenoti_utils/config.py`).  Dynamic Python values are embedded as the inductive
type `PyVal`; Python dictionaries with string keys are association lists in
insertion order; the HTTP vendor API is a parameter mapping an API key and the
`page`/`size` query parameters to either a transport error or a parsed JSON
body; the `while True` pagination loop becomes a fuel-indexed recursion
returning `Option` (with `none` only for fuel exhaustion, which the real loop
cannot signal); a raised `ValueError` becomes the `Except.error` branch of an
`Except` result.
-/

set_option autoImplicit false

namespace VendorReport

/-- Embedded Python/JSON value: `None`, booleans, integers, strings, lists and
string-keyed dictionaries (as association lists in insertion order). -/
inductive PyVal where
  | none
  | bool (b : Bool)
  | int (n : Int)
  | str (s : String)
  | list (vs : List PyVal)
  | dict (kvs : List (String × PyVal))

/-- A single quote character, used by the Python `repr` of strings. -/
def sq : String := String.mk [Char.ofNat 39]

mutual

/-- Python `repr` of a value (string escaping inside `repr` is approximated:
the characters of the string are emitted verbatim between single quotes). -/
def pyRepr : PyVal → String
  | .none => "None"
  | .bool true => "True"
  | .bool false => "False"
  | .int n => toString n
  | .str s => sq ++ s ++ sq
  | .list vs => "[" ++ pyReprItems vs ++ "]"
  | .dict kvs => "\x7b" ++ pyReprPairs kvs ++ "\x7d"

/-- Comma-separated `repr`s of the items of a Python list. -/
def pyReprItems : List PyVal → String
  | [] => ""
  | [v] => pyRepr v
  | v :: vs => pyRepr v ++ ", " ++ pyReprItems vs

/-- Comma-separated `key: value` renderings of the entries of a Python dict. -/
def pyReprPairs : List (String × PyVal) → String
  | [] => ""
  | [(k, v)] => sq ++ k ++ sq ++ ": " ++ pyRepr v
  | (k, v) :: kvs => sq ++ k ++ sq ++ ": " ++ pyRepr v ++ ", " ++ pyReprPairs kvs

end

/-- Python `str` of a value: the string itself for strings, `repr` otherwise. -/
def pyStr (v : PyVal) : String :=
  match v with
  | .str s => s
  | _ => pyRepr v

/-- Python truthiness: `None`, `False`, `0`, `""`, `[]` and `{}` are falsy. -/
def pyTruthy : PyVal → Bool
  | .none => false
  | .bool b => b
  | .int n => n != 0
  | .str s => s != ""
  | .list vs => !vs.isEmpty
  | .dict kvs => !kvs.isEmpty

/-- Python `x != 0` for an embedded value `x` (an `int` compares numerically,
a `bool` compares as `0`/`1`, every other type is unequal to `0`). -/
def pyNeZero : PyVal → Bool
  | .int n => n != 0
  | .bool b => b
  | _ => true

/-- First value stored under key `k` in an embedded Python dict. -/
def getKey (k : String) : List (String × PyVal) → Option PyVal
  | [] => Option.none
  | (k2, v) :: kvs => if k2 = k then some v else getKey k kvs

/-- `normalize_phone` (fetch_vendors.py lines 152-169): a non-dict value is
stringified (empty string when falsy); for a dict, an empty (falsy) `number`
yields `""`; a truthy `phone_code` that is `!= 0` is concatenated with the
number via an f-string; otherwise the `number` value is returned unchanged.
The `try`/`except` wrapper has no effect in the embedding because every
embedded operation is total. -/
def normalize_phone (phone : PyVal) : PyVal :=
  match phone with
  | .dict kvs =>
    let phone_code := (getKey "phone_code" kvs).getD (.int 0)
    let number := (getKey "number" kvs).getD (.str "")
    if ¬ pyTruthy number then .str ""
    else if pyTruthy phone_code ∧ pyNeZero phone_code then
      .str (pyStr phone_code ++ pyStr number)
    else number
  | v => if pyTruthy v then .str (pyStr v) else .str ""

/-! ## Configuration and the vendor API -/

/-- A vendor record: an open-ended string-keyed mapping, as parsed from the
JSON response (a Python dict in insertion order). -/
abbrev Vendor := List (String × PyVal)

/-- The configuration loaded by `load_zenoti_config`: `org_to_api_key` maps a
lowercase organization key to an API key, `centers_by_key` maps an API key to
a center-id → center-name table. -/
structure ZenotiConfig where
  org_to_api_key : List (String × String)
  centers_by_key : List (String × List (String × String))

/-- Python `str.lower()`, embedded character-wise (exact on the ASCII keys the
configuration uses). -/
def strLower (s : String) : String :=
  String.mk (s.data.map Char.toLower)

/-- First value stored under a string key in a string-to-string dict. -/
def getKeyS (k : String) : List (String × String) → Option String
  | [] => Option.none
  | (k2, v) :: kvs => if k2 = k then some v else getKeyS k kvs

/-- First center table stored under an API key in `centers_by_key`. -/
def getKeyC (k : String) : List (String × List (String × String)) → Option (List (String × String))
  | [] => Option.none
  | (k2, v) :: kvs => if k2 = k then some v else getKeyC k kvs

/-- Parsed JSON body of one page response: the optional `vendors` and `data`
keys, each holding a list of vendor records when present. -/
structure ApiBody where
  vendors : Option (List Vendor)
  data : Option (List Vendor)

/-- Outcome of one HTTP GET: a transport error (`requests.RequestException`,
raised by `get`/`raise_for_status`/`json`) or a parsed body. -/
inductive ApiResult where
  | err
  | ok (body : ApiBody)

/-- The vendor API as seen through `requests.get`: API key (sent in the
`Authorization` header) and `page`/`size` query parameters to a result.
The date range does not change which claims hold, so it is left implicit
in the API parameter. -/
abbrev VendorApi := String → Nat → Nat → ApiResult

/-- Result of `fetch_vendors`: the empty dict `{}` or `{'vendors': vs}`. -/
inductive FetchResult where
  | empty
  | vendors (vs : List Vendor)

/-- `vendors = data.get('vendors', []) or data.get('data', [])` (line 80):
the `vendors` key when present and non-empty, else the `data` key when
present, else the empty list. -/
def extractVendors (b : ApiBody) : List Vendor :=
  let v := b.vendors.getD []
  if v.isEmpty then b.data.getD [] else v

/-- Python dict assignment `d[k] = v`: replace the value in place when the key
is present, append the new entry otherwise. -/
def dictSet (v : Vendor) (k : String) (val : PyVal) : Vendor :=
  if v.any (fun p => p.1 = k) then
    v.map (fun p => if p.1 = k then (k, val) else p)
  else v ++ [(k, val)]

/-- Python `d.pop(k, None)`: remove the entry under `k`. -/
def dictPop (v : Vendor) (k : String) : Vendor :=
  v.filter (fun p => p.1 ≠ k)

/-- `centers.get(vendor['center_id'], vendor['center_id'])`: a string id found
in the table resolves to its name; anything else falls back to the id. -/
def centerResolve (centers : List (String × String)) (cid : PyVal) : PyVal :=
  match cid with
  | .str s =>
    match getKeyS s centers with
    | some name => .str name
    | Option.none => cid
  | _ => cid

/-- Loop body lines 88-91: when the record carries a `center_id`, store the
resolved `center_name` and remove `center_id`. -/
def enrichVendor (centers : List (String × String)) (v : Vendor) : Vendor :=
  match getKey "center_id" v with
  | Option.none => v
  | some cid => dictPop (dictSet v "center_name" (centerResolve centers cid)) "center_id"

/-- The `while True` pagination loop (lines 71-97), with fuel.  Returns the
list of `(page, size)` pairs requested and the Python return value; `none`
only on fuel exhaustion.  A transport error returns the empty dict at once,
discarding the accumulator; an empty extracted vendor list breaks and returns
the accumulated records. -/
def fetchLoop (api : Nat → Nat → ApiResult) (centers : List (String × String)) :
    Nat → Nat → List Vendor → Option (List (Nat × Nat) × FetchResult)
  | 0, _, _ => Option.none
  | fuel + 1, page, acc =>
    match api page 100 with
    | .err => some ([(page, 100)], .empty)
    | .ok body =>
      let vs := extractVendors body
      if vs.isEmpty then some ([(page, 100)], .vendors acc)
      else
        match fetchLoop api centers fuel (page + 1) (acc ++ vs.map (enrichVendor centers)) with
        | Option.none => Option.none
        | some (reqs, r) => some ((page, 100) :: reqs, r)

/-- `fetch_vendors` (lines 42-99): resolve the API key by the lowercased
organization key; a missing or falsy (empty) key returns `{}` without any
request; otherwise page from page 1 with size 100, enriching each record with
its center name. -/
def fetch_vendors (org : String) (config : ZenotiConfig) (api : VendorApi) (fuel : Nat) :
    Option (List (Nat × Nat) × FetchResult) :=
  match getKeyS (strLower org) config.org_to_api_key with
  | Option.none => some ([], .empty)
  | some apiKey =>
    if apiKey = "" then some ([], .empty)
    else
      let centers := (getKeyC apiKey config.centers_by_key).getD []
      fetchLoop (api apiKey) centers fuel 1 []

/-! ## DataFrames and the report builder -/

/-- One cell of a pandas DataFrame: a value from a record, or `NaN` when the
record lacks the column. -/
inductive Cell where
  | val (v : PyVal)
  | nan

/-- A pandas DataFrame built from a list of records: column labels plus one
row of cells per record, each row aligned with `columns`. -/
structure Frame where
  columns : List String
  rows : List (List Cell)

/-- Append a key to the column list unless already present. -/
def addKey (acc : List String) (k : String) : List String :=
  if k ∈ acc then acc else acc ++ [k]

/-- Column labels of `DataFrame(records)`: the union of the records' keys in
first-appearance order. -/
def unionKeys (vs : List Vendor) : List String :=
  vs.foldl (fun acc v => v.foldl (fun a p => addKey a p.1) acc) []

/-- `DataFrame(records)` (line 146): columns are the union of keys; a record
missing a column gets `NaN` in that cell. -/
def toFrame (vs : List Vendor) : Frame :=
  let cols := unionKeys vs
  { columns := cols
    rows := vs.map (fun v => cols.map (fun c =>
      match getKey c v with
      | some x => Cell.val x
      | Option.none => Cell.nan)) }

/-- `normalize_phone` applied to one DataFrame cell: a `NaN` cell is a float,
not a dict, and is truthy, so it stringifies to `"nan"`. -/
def normalizeCellVal : Cell → PyVal
  | .val v => normalize_phone v
  | .nan => PyVal.str "nan"

/-- `dataframe['work_phone'].apply(normalize_phone)` (lines 150-172): when the
`work_phone` column exists, replace each of its cells by the normalized
value. -/
def applyNormalize (f : Frame) : Frame :=
  if "work_phone" ∈ f.columns then
    let idx := f.columns.indexOf "work_phone"
    { f with rows := f.rows.map (fun r => r.set idx (Cell.val (normalizeCellVal (r.getD idx Cell.nan)))) }
  else f

/-- `dataframe.rename(columns={'work_phone': 'Work Phone'})` guarded by the
column-presence check (lines 185-186). -/
def renameWorkPhone (f : Frame) : Frame :=
  if "work_phone" ∈ f.columns then
    { f with columns := f.columns.map (fun c => if c = "work_phone" then "Work Phone" else c) }
  else f

/-- `dataframe['center_name'] = ''` when the column is absent (lines 189-190):
a new column of empty strings. -/
def ensureCenterName (f : Frame) : Frame :=
  if "center_name" ∈ f.columns then f
  else { columns := f.columns ++ ["center_name"]
         rows := f.rows.map (fun r => r ++ [Cell.val (PyVal.str "")]) }

/-- The per-organization post-processing of lines 150-192 in order:
phone normalization, then the rename, then the center-name default. -/
def finishFrame (f : Frame) : Frame :=
  ensureCenterName (renameWorkPhone (applyNormalize f))

/-- The two `ValueError` sites of `get_vendors_report`, distinguished by
their messages: `"No valid organizations found in config."` (line 128) and
`"No vendors data found for {org}."` (line 139). -/
inductive ReportError where
  | noValidOrgs
  | noVendorsData (org : String)

/-- Line 125: organizations whose lowercased key is present in
`org_to_api_key` (dict membership, regardless of the stored value). -/
def validOrgs (config : ZenotiConfig) (organizations : List String) : List String :=
  organizations.filter (fun org => (getKeyS (strLower org) config.org_to_api_key).isSome)

/-- Line 132: fetch every valid organization in order, sequentially. -/
def fetchAll (config : ZenotiConfig) (api : VendorApi) (fuel : Nat) :
    List String → Option (List (String × FetchResult))
  | [] => some []
  | org :: rest =>
    match fetch_vendors org config api fuel with
    | Option.none => Option.none
    | some (_, r) =>
      match fetchAll config api fuel rest with
      | Option.none => Option.none
      | some raw => some ((org, r) :: raw)

/-- Lines 136-139: the first organization whose fetch result is falsy (`{}`)
or lacks the `vendors` key, if any.  A `FetchResult.vendors` value is a
non-empty dict carrying the key, so it passes even with an empty list. -/
def validateAll : List (String × FetchResult) → Option String
  | [] => Option.none
  | (org, .empty) :: _ => some org
  | (_, .vendors _) :: rest => validateAll rest

/-- Lines 142-192 for a single organization: take its `vendors` list (the
`.empty` branch is unreachable after validation), build the DataFrame and
post-process it. -/
def rowsToFrame (p : String × FetchResult) : String × Frame :=
  (p.1, finishFrame (toFrame (match p.2 with
    | .vendors vs => vs
    | .empty => [])))

/-- Lines 136-192 after the fetches: validate every result (line 139 raises
at the first failure) and otherwise build the finished DataFrames. -/
def buildFromRaw (raw : List (String × FetchResult)) :
    Except ReportError (List (String × Frame)) :=
  match validateAll raw with
  | some org => .error (.noVendorsData org)
  | Option.none => .ok (raw.map rowsToFrame)

/-- `get_vendors_report` (lines 101-194) on an organization list: filter to
valid organizations (raising when none remain), fetch each, validate every
result, then convert each vendor list to a finished DataFrame.  The source's
`valid_orgs` local variable is inlined; `none` only on fuel exhaustion inside
a fetch. -/
def get_vendors_report (organizations : List String) (config : ZenotiConfig)
    (api : VendorApi) (fuel : Nat) :
    Option (Except ReportError (List (String × Frame))) :=
  if (validOrgs config organizations).isEmpty then some (.error .noValidOrgs)
  else (fetchAll config api fuel (validOrgs config organizations)).map buildFromRaw

/-- Organization keys of a successful report, `none` for an error or fuel
exhaustion. -/
def resultOrgs (r : Option (Except ReportError (List (String × Frame)))) : Option (List String) :=
  match r with
  | some (.ok frames) => some (frames.map Prod.fst)
  | _ => Option.none

/-! ## Exporter -/

/-- The sheet-writing loop inside the `with pd.ExcelWriter(...)` block
(lines 33-36): write each organization's frame in order, stopping at the
first failure, which is what an exception raised mid-loop does. -/
def writeSheets (writeSheet : String → Frame → Except String Unit) :
    List (String × Frame) → Except String Unit
  | [] => .ok ()
  | (org, df) :: rest =>
    match writeSheet org df with
    | .error e => .error e
    | .ok _ => writeSheets writeSheet rest

/-- `export_orgs_to_excel` (lines 19-39): build the output path, attempt the
write, and catch any exception, logging it instead of re-raising.  The result
is the single final log line; the `Except` layer records that the function
itself could in principle raise — the theorems show it never does. -/
def export_orgs_to_excel (data : List (String × Frame))
    (writeSheet : String → Frame → Except String Unit)
    (output_dir report_name date_str : String) : Except String (List String) :=
  let output_file := output_dir ++ "/" ++ report_name ++ "_" ++ date_str ++ ".xlsx"
  match writeSheets writeSheet data with
  | .ok _ => Except.ok ["Saved Excel file: " ++ output_file]
  | .error e => Except.ok ["Error saving to Excel file " ++ output_file ++ ": " ++ e]

/-! ## The CLI default date range -/

/-- A calendar date as handled by `datetime`. -/
structure Date where
  year : Nat
  month : Nat
  day : Nat
  deriving DecidableEq

/-- Injectivity of the `Date` constructor, stated on the projections. -/
theorem Date.ext_iff2 (a b : Date) :
    a = b ↔ a.year = b.year ∧ a.month = b.month ∧ a.day = b.day := by
  constructor
  · intro h; subst h; exact ⟨rfl, rfl, rfl⟩
  · intro ⟨h1, h2, h3⟩; cases a; cases b; simp_all

/-- Gregorian leap-year rule, as implemented by `datetime`. -/
def isLeap (y : Nat) : Bool :=
  (y % 4 == 0 && y % 100 != 0) || y % 400 == 0

/-- Number of days in a month (month `1`-`12`). -/
def daysInMonth (y m : Nat) : Nat :=
  if m = 2 then (if isLeap y then 29 else 28)
  else if m = 4 ∨ m = 6 ∨ m = 9 ∨ m = 11 then 30
  else 31

/-- A valid `datetime` date: month in `1..12`, day in `1..daysInMonth`,
positive year. -/
def validDate (d : Date) : Prop :=
  1 ≤ d.year ∧ 1 ≤ d.month ∧ d.month ≤ 12 ∧ 1 ≤ d.day ∧ d.day ≤ daysInMonth d.year d.month

/-- `today - timedelta(days=1)`. -/
def yesterdayDate (d : Date) : Date :=
  if 2 ≤ d.day then { d with day := d.day - 1 }
  else if 2 ≤ d.month then { year := d.year, month := d.month - 1, day := daysInMonth d.year (d.month - 1) }
  else { year := d.year - 1, month := 12, day := 31 }

/-- Lines 201-202 of the entry point: `_end_date = today - timedelta(days=1)`
and `_start_date = _end_date.replace(day=1)`, returned as (start, end). -/
def defaultRange (today : Date) : Date × Date :=
  let e := yesterdayDate today
  ({ e with day := 1 }, e)

/-- Modelled from the spec: the start date the spec describes, "the first day
of the previous month" relative to the run date. -/
def prevMonthFirstSpec (today : Date) : Date :=
  if 2 ≤ today.month then { year := today.year, month := today.month - 1, day := 1 }
  else { year := today.year - 1, month := 12, day := 1 }

/-! ## Dictionary lemmas -/

theorem getKey_cons (k k2 : String) (x : PyVal) (kvs : List (String × PyVal)) :
    getKey k ((k2, x) :: kvs) = if k2 = k then some x else getKey k kvs := rfl

theorem getKey_map_replace (k : String) (val : PyVal) (v : Vendor) :
    getKey k (v.map (fun p => if p.1 = k then (k, val) else p)) =
      (getKey k v).map (fun _ => val) := by
  induction v with
  | nil => rfl
  | cons p rest ih =>
    obtain ⟨k2, x⟩ := p
    simp only [List.map_cons]
    by_cases h : k2 = k
    · subst h
      simp [getKey_cons, ih]
    · rw [show ((if (k2, x).1 = k then (k, val) else (k2, x)) = (k2, x)) from if_neg h]
      rw [getKey_cons, getKey_cons, if_neg h, if_neg h, ih]

theorem getKey_isSome_iff_any (k : String) (v : Vendor) :
    (getKey k v).isSome = v.any (fun p => p.1 = k) := by
  induction v with
  | nil => rfl
  | cons p rest ih =>
    obtain ⟨k2, x⟩ := p
    by_cases h : k2 = k
    · subst h
      simp [getKey_cons]
    · simp [getKey_cons, h, ih]

theorem getKey_append_of_none (k : String) (a b : Vendor) (h : getKey k a = Option.none) :
    getKey k (a ++ b) = getKey k b := by
  induction a with
  | nil => rfl
  | cons p rest ih =>
    obtain ⟨k2, x⟩ := p
    rw [getKey_cons] at h
    by_cases hk : k2 = k
    · rw [if_pos hk] at h; exact absurd h (by simp)
    · rw [if_neg hk] at h
      rw [List.cons_append, getKey_cons, if_neg hk]
      exact ih h

theorem getKey_dictSet_self (v : Vendor) (k : String) (val : PyVal) :
    getKey k (dictSet v k val) = some val := by
  unfold dictSet
  by_cases h : (v.any (fun p => p.1 = k) : Bool)
  · rw [if_pos (by simpa using h), getKey_map_replace]
    have hs : (getKey k v).isSome := by rw [getKey_isSome_iff_any]; exact h
    obtain ⟨x, hx⟩ := Option.isSome_iff_exists.mp hs
    rw [hx]; rfl
  · rw [if_neg (by simpa using h)]
    have hn : getKey k v = Option.none := by
      rw [← Option.not_isSome_iff_eq_none, getKey_isSome_iff_any]
      simpa using h
    rw [getKey_append_of_none k v _ hn, getKey_cons, if_pos rfl]

theorem getKey_dictPop_self (v : Vendor) (k : String) :
    getKey k (dictPop v k) = Option.none := by
  unfold dictPop
  induction v with
  | nil => rfl
  | cons p rest ih =>
    obtain ⟨k2, x⟩ := p
    rw [List.filter_cons]
    by_cases h : k2 = k
    · rw [if_neg (by simp [h])]
      exact ih
    · rw [if_pos (by simp [h]), getKey_cons, if_neg h]
      exact ih

theorem getKey_dictPop_ne (v : Vendor) (k k2 : String) (h : k ≠ k2) :
    getKey k (dictPop v k2) = getKey k v := by
  unfold dictPop
  induction v with
  | nil => rfl
  | cons p rest ih =>
    obtain ⟨k3, x⟩ := p
    rw [List.filter_cons]
    by_cases h3 : k3 = k2
    · have hk3 : ¬ k3 = k := by
        rw [h3]; exact fun hh => h hh.symm
      rw [if_neg (by simp [h3]), ih, getKey_cons, if_neg hk3]
    · rw [if_pos (by simp [h3]), getKey_cons, getKey_cons, ih]

/-! ## Pagination-loop lemmas -/

theorem extractVendors_some (p : List Vendor) (hd : Option (List Vendor)) (h : p ≠ []) :
    extractVendors ⟨some p, hd⟩ = p := by
  unfold extractVendors
  simp [List.isEmpty_iff, h]

theorem fetchLoop_err (api : Nat → Nat → ApiResult) (centers : List (String × String))
    (n page : Nat) (acc : List Vendor) (h : api page 100 = .err) :
    fetchLoop api centers (n + 1) page acc = some ([(page, 100)], .empty) := by
  unfold fetchLoop
  rw [h]

theorem fetchLoop_emptyPage (api : Nat → Nat → ApiResult) (centers : List (String × String))
    (n page : Nat) (acc : List Vendor) (b : ApiBody)
    (h : api page 100 = .ok b) (he : extractVendors b = []) :
    fetchLoop api centers (n + 1) page acc = some ([(page, 100)], .vendors acc) := by
  unfold fetchLoop
  rw [h]
  simp [he]

theorem fetchLoop_step (api : Nat → Nat → ApiResult) (centers : List (String × String))
    (n page : Nat) (acc : List Vendor) (b : ApiBody)
    (h : api page 100 = .ok b) (hne : extractVendors b ≠ []) :
    fetchLoop api centers (n + 1) page acc =
      (fetchLoop api centers n (page + 1) (acc ++ (extractVendors b).map (enrichVendor centers))).map
        (fun pr => ((page, 100) :: pr.1, pr.2)) := by
  conv_lhs => rw [fetchLoop]
  rw [h]
  have hie : (extractVendors b).isEmpty = false := by simp [List.isEmpty_iff, hne]
  simp only [hie, Bool.false_eq_true, if_false]
  cases fetchLoop api centers n (page + 1) (acc ++ (extractVendors b).map (enrichVendor centers)) with
  | none => rfl
  | some pr => obtain ⟨reqs, r⟩ := pr; rfl

theorem fetch_vendors_eq_loop (org : String) (cfg : ZenotiConfig) (api : VendorApi)
    (fuel : Nat) (key : String)
    (hkey : getKeyS (strLower org) cfg.org_to_api_key = some key) (hne : key ≠ "") :
    fetch_vendors org cfg api fuel =
      fetchLoop (api key) ((getKeyC key cfg.centers_by_key).getD []) fuel 1 [] := by
  unfold fetch_vendors
  rw [hkey]
  show (if key = "" then some ([], FetchResult.empty)
    else fetchLoop (api key) ((getKeyC key cfg.centers_by_key).getD []) fuel 1 []) = _
  rw [if_neg hne]

/-! ## Report-builder lemmas -/

theorem fetchAll_fst (cfg : ZenotiConfig) (api : VendorApi) (fuel : Nat) :
    ∀ (orgs : List String) (raw : List (String × FetchResult)),
      fetchAll cfg api fuel orgs = some raw → raw.map Prod.fst = orgs := by
  intro orgs
  induction orgs with
  | nil =>
    intro raw h
    unfold fetchAll at h
    cases h
    rfl
  | cons o rest ih =>
    intro raw h
    unfold fetchAll at h
    cases hf : fetch_vendors o cfg api fuel with
    | none => rw [hf] at h; cases h
    | some pr =>
      obtain ⟨reqs, r⟩ := pr
      rw [hf] at h
      cases hrest : fetchAll cfg api fuel rest with
      | none => rw [hrest] at h; cases h
      | some raw2 =>
        rw [hrest] at h
        cases h
        simp [ih raw2 hrest]

theorem fetchAll_total (cfg : ZenotiConfig) (api : VendorApi) (fuel : Nat) :
    ∀ orgs : List String, (∀ o ∈ orgs, (fetch_vendors o cfg api fuel).isSome) →
      ∃ raw, fetchAll cfg api fuel orgs = some raw ∧
        ∀ (o : String) (reqs : List (Nat × Nat)) (r : FetchResult),
          o ∈ orgs → fetch_vendors o cfg api fuel = some (reqs, r) → (o, r) ∈ raw := by
  intro orgs
  induction orgs with
  | nil =>
    intro _
    exact ⟨[], rfl, fun o reqs r ho => absurd ho (List.not_mem_nil o)⟩
  | cons q rest ih =>
    intro hall
    have hq : (fetch_vendors q cfg api fuel).isSome := hall q (List.mem_cons_self q rest)
    obtain ⟨pr, hpr⟩ := Option.isSome_iff_exists.mp hq
    obtain ⟨reqs0, r0⟩ := pr
    obtain ⟨raw, hraw, hin⟩ := ih (fun o ho => hall o (List.mem_cons_of_mem q ho))
    refine ⟨(q, r0) :: raw, ?_, ?_⟩
    · unfold fetchAll
      rw [hpr, hraw]
    · intro o reqs r ho hor
      rcases List.mem_cons.mp ho with ho | ho
      · subst ho
        rw [hor] at hpr
        cases hpr
        exact List.mem_cons_self _ _
      · exact List.mem_cons_of_mem _ (hin o reqs r ho hor)

theorem validateAll_finds :
    ∀ raw : List (String × FetchResult),
      (∃ p, p ∈ raw ∧ p.2 = FetchResult.empty) → ∃ o, validateAll raw = some o := by
  intro raw
  induction raw with
  | nil => rintro ⟨p, hp, _⟩; cases hp
  | cons q rest ih =>
    rintro ⟨p, hp, he⟩
    obtain ⟨o, r⟩ := q
    cases r with
    | empty => exact ⟨o, rfl⟩
    | vendors vs =>
      rcases List.mem_cons.mp hp with hp | hp
      · rw [hp] at he
        cases he
      · obtain ⟨o2, ho2⟩ := ih ⟨p, hp, he⟩
        exact ⟨o2, ho2⟩

/-! ## Claim theorems -/

/-- C3: every fetched vendor record carrying a `center_id` field gets
`center_name` set to the center table's value at that id — the raw id itself
when the table has no entry, as `centerResolve` states — and loses its
`center_id` field (lines 85-91 of `fetch_vendors`, applied to every record
of every page). -/
theorem enrich_center_resolution (centers : List (String × String)) (v : Vendor) (cid : PyVal)
    (h : getKey "center_id" v = some cid) :
    getKey "center_name" (enrichVendor centers v) = some (centerResolve centers cid) ∧
    getKey "center_id" (enrichVendor centers v) = Option.none := by
  unfold enrichVendor
  rw [h]
  constructor
  · rw [getKey_dictPop_ne _ _ _ (by decide)]
    exact getKey_dictSet_self v "center_name" (centerResolve centers cid)
  · exact getKey_dictPop_self _ "center_id"

/-- Witness for C3: under the table `{"C1": "Downtown"}`, a record with
`center_id: "C1"` gets `center_name: "Downtown"` and no `center_id`; a
record with unmapped `center_id: "C9"` gets `center_name: "C9"`. -/
theorem enrich_center_resolution_witness :
    getKey "center_name" (enrichVendor [("C1", "Downtown")] [("center_id", PyVal.str "C1")]) =
        some (PyVal.str "Downtown") ∧
    getKey "center_id" (enrichVendor [("C1", "Downtown")] [("center_id", PyVal.str "C1")]) =
        Option.none ∧
    getKey "center_name" (enrichVendor [("C1", "Downtown")] [("center_id", PyVal.str "C9")]) =
        some (PyVal.str "C9") := by
  have h1 := enrich_center_resolution [("C1", "Downtown")] [("center_id", PyVal.str "C1")]
    (PyVal.str "C1") (by rw [getKey_cons, if_pos rfl])
  have h2 := enrich_center_resolution [("C1", "Downtown")] [("center_id", PyVal.str "C9")]
    (PyVal.str "C9") (by rw [getKey_cons, if_pos rfl])
  refine ⟨?_, h1.2, ?_⟩
  · rw [h1.1]
    exact congrArg some (by rfl)
  · rw [h2.1]
    exact congrArg some (by rfl)

theorem normalize_phone_dict (kvs : List (String × PyVal)) :
    normalize_phone (.dict kvs) =
      (let phone_code := (getKey "phone_code" kvs).getD (.int 0)
       let number := (getKey "number" kvs).getD (.str "")
       if ¬ pyTruthy number then .str ""
       else if pyTruthy phone_code ∧ pyNeZero phone_code then
         .str (pyStr phone_code ++ pyStr number)
       else number) := rfl

/-- C2: case analysis of `normalize_phone` exactly along the claim's clauses:
a non-mapping is coerced to its string form (empty string when falsy); a
mapping with an empty (or missing) `number` yields `""`; a mapping with a
non-zero integer `phone_code` yields the code concatenated with the number;
a zero or missing `phone_code` yields the number alone.  The function is
total, so no input can raise — the `except` branch of the source is
unreachable in the embedding. -/
theorem normalize_phone_cases :
    (∀ v : PyVal, (∀ kvs, v ≠ .dict kvs) →
      normalize_phone v = (if pyTruthy v then .str (pyStr v) else .str "")) ∧
    (∀ kvs num, getKey "number" kvs = some num → pyTruthy num = false →
      normalize_phone (.dict kvs) = .str "") ∧
    (∀ kvs, getKey "number" kvs = Option.none →
      normalize_phone (.dict kvs) = .str "") ∧
    (∀ kvs (c : Int) (s : String), getKey "phone_code" kvs = some (.int c) → c ≠ 0 →
      getKey "number" kvs = some (.str s) → s ≠ "" →
      normalize_phone (.dict kvs) = .str (toString c ++ s)) ∧
    (∀ kvs (s : String), getKey "phone_code" kvs = some (.int 0) →
      getKey "number" kvs = some (.str s) → s ≠ "" →
      normalize_phone (.dict kvs) = .str s) ∧
    (∀ kvs (s : String), getKey "phone_code" kvs = Option.none →
      getKey "number" kvs = some (.str s) → s ≠ "" →
      normalize_phone (.dict kvs) = .str s) := by
  refine ⟨?_, ?_, ?_, ?_, ?_, ?_⟩
  · intro v hv
    cases v with
    | dict kvs => exact absurd rfl (hv kvs)
    | none => rfl
    | bool b => rfl
    | int n => rfl
    | str s => rfl
    | list vs => rfl
  · intro kvs num hn ht
    rw [normalize_phone_dict]
    simp only [hn, Option.getD_some]
    simp [ht]
  · intro kvs hn
    rw [normalize_phone_dict]
    simp only [hn, Option.getD_none]
    simp [pyTruthy]
  · intro kvs c s hc hcne hn hs
    rw [normalize_phone_dict]
    simp only [hc, hn, Option.getD_some]
    have ht : pyTruthy (.str s) = true := by simpa [pyTruthy] using hs
    have hcode : pyTruthy (.int c) = true := by simpa [pyTruthy] using hcne
    have hz : pyNeZero (.int c) = true := by simpa [pyNeZero] using hcne
    simp [ht, hcode, hz, pyStr, pyRepr]
  · intro kvs s hc hn hs
    rw [normalize_phone_dict]
    simp only [hc, hn, Option.getD_some]
    have ht : pyTruthy (.str s) = true := by simpa [pyTruthy] using hs
    simp [ht, pyTruthy]
    exact fun h2 => h2.symm
  · intro kvs s hc hn hs
    rw [normalize_phone_dict]
    simp only [hc, hn, Option.getD_none, Option.getD_some]
    have ht : pyTruthy (.str s) = true := by simpa [pyTruthy] using hs
    simp [ht, pyTruthy, pyNeZero]
    exact fun h2 => h2.symm

/-- Witness for C2: `{"phone_code": 971, "number": "501234567"}` normalizes to
`"971501234567"` and `{"phone_code": 0, "number": "501234567"}` to
`"501234567"`. -/
theorem normalize_phone_cases_witness :
    normalize_phone (.dict [("phone_code", PyVal.int 971), ("number", PyVal.str "501234567")]) =
        .str "971501234567" ∧
    normalize_phone (.dict [("phone_code", PyVal.int 0), ("number", PyVal.str "501234567")]) =
        .str "501234567" := by
  constructor
  · have h := normalize_phone_cases.2.2.2.1
      [("phone_code", PyVal.int 971), ("number", PyVal.str "501234567")] 971 "501234567"
      (by rw [getKey_cons, if_pos rfl]) (by decide)
      (by rw [getKey_cons, if_neg (by decide), getKey_cons, if_pos rfl]) (by decide)
    rw [h]
    rw [show toString (971 : Int) ++ "501234567" = "971501234567" from by decide]
  · exact normalize_phone_cases.2.2.2.2.1
      [("phone_code", PyVal.int 0), ("number", PyVal.str "501234567")] "501234567"
      (by rw [getKey_cons, if_pos rfl])
      (by rw [getKey_cons, if_neg (by decide), getKey_cons, if_pos rfl]) (by decide)

/-- C7: with no API key — the lowercased organization key absent from
`org_to_api_key` — or a falsy (empty) API key, `fetch_vendors` returns the
empty dict having issued no request at all, and does not raise. -/
theorem fetch_missing_api_key (org : String) (config : ZenotiConfig) (api : VendorApi)
    (fuel : Nat)
    (h : getKeyS (strLower org) config.org_to_api_key = Option.none ∨
         getKeyS (strLower org) config.org_to_api_key = some "") :
    fetch_vendors org config api fuel = some ([], .empty) := by
  unfold fetch_vendors
  rcases h with h | h
  · rw [h]
  · rw [h]
    rfl

/-- Witness for C7: an organization absent from the configuration yields the
empty result with an empty request list. -/
theorem fetch_missing_api_key_witness :
    fetch_vendors "ghost" ⟨[("acme", "k1")], []⟩ (fun _ _ _ => ApiResult.err) 5 =
      some ([], .empty) :=
  fetch_missing_api_key "ghost" ⟨[("acme", "k1")], []⟩ (fun _ _ _ => ApiResult.err) 5
    (Or.inl (by decide))

/-- C1: with a resolvable (present, non-empty) API key, and an API whose
pages 1 and 2 carry 100 records each under the `vendors` key and whose page 3
is empty, `fetch_vendors` issues exactly the three requests
`(page 1, size 100)`, `(page 2, size 100)`, `(page 3, size 100)` — starting
at page 1, incrementing after each non-empty page, stopping at the first
empty page — and returns 200 accumulated records. -/
theorem fetch_vendors_paginates (org : String) (cfg : ZenotiConfig) (api : VendorApi)
    (key : String) (p1 p2 : List Vendor)
    (hkey : getKeyS (strLower org) cfg.org_to_api_key = some key) (hne : key ≠ "")
    (h1 : api key 1 100 = .ok ⟨some p1, Option.none⟩)
    (h2 : api key 2 100 = .ok ⟨some p2, Option.none⟩)
    (h3 : api key 3 100 = .ok ⟨some [], Option.none⟩)
    (hl1 : p1.length = 100) (hl2 : p2.length = 100) :
    ∃ vs, fetch_vendors org cfg api 3 = some ([(1, 100), (2, 100), (3, 100)], .vendors vs) ∧
      vs.length = 200 := by
  have hp1 : p1 ≠ [] := by intro h; rw [h] at hl1; cases hl1
  have hp2 : p2 ≠ [] := by intro h; rw [h] at hl2; cases hl2
  have e1 : extractVendors ⟨some p1, Option.none⟩ = p1 := extractVendors_some p1 _ hp1
  have e2 : extractVendors ⟨some p2, Option.none⟩ = p2 := extractVendors_some p2 _ hp2
  set centers := (getKeyC key cfg.centers_by_key).getD [] with hcen
  have t1 : fetchLoop (api key) centers 3 1 [] =
      (fetchLoop (api key) centers 2 2 ([] ++ p1.map (enrichVendor centers))).map
        (fun pr => ((1, 100) :: pr.1, pr.2)) := by
    have t := fetchLoop_step (api key) centers 2 1 [] ⟨some p1, Option.none⟩ h1
      (by rw [e1]; exact hp1)
    rw [e1] at t
    exact t
  have t2 : fetchLoop (api key) centers 2 2 ([] ++ p1.map (enrichVendor centers)) =
      (fetchLoop (api key) centers 1 3
        (([] ++ p1.map (enrichVendor centers)) ++ p2.map (enrichVendor centers))).map
        (fun pr => ((2, 100) :: pr.1, pr.2)) := by
    have t := fetchLoop_step (api key) centers 1 2 ([] ++ p1.map (enrichVendor centers))
      ⟨some p2, Option.none⟩ h2 (by rw [e2]; exact hp2)
    rw [e2] at t
    exact t
  have t3 : fetchLoop (api key) centers 1 3
      (([] ++ p1.map (enrichVendor centers)) ++ p2.map (enrichVendor centers)) =
      some ([(3, 100)],
        .vendors (([] ++ p1.map (enrichVendor centers)) ++ p2.map (enrichVendor centers))) :=
    fetchLoop_emptyPage (api key) centers 0 3 _ ⟨some [], Option.none⟩ h3 rfl
  refine ⟨([] ++ p1.map (enrichVendor centers)) ++ p2.map (enrichVendor centers), ?_, ?_⟩
  · rw [fetch_vendors_eq_loop org cfg api 3 key hkey hne, ← hcen, t1, t2, t3]
    rfl
  · simp [hl1, hl2]

/-- Witness for C1: a two-full-pages-then-empty API at a concrete
configuration yields three requests of size 100 and 200 records. -/
theorem fetch_vendors_paginates_witness :
    ∃ vs, fetch_vendors "Acme" ⟨[("acme", "k1")], []⟩
        (fun _ page _ =>
          if page = 1 then .ok ⟨some (List.replicate 100 []), Option.none⟩
          else if page = 2 then .ok ⟨some (List.replicate 100 []), Option.none⟩
          else .ok ⟨some [], Option.none⟩) 3 =
      some ([(1, 100), (2, 100), (3, 100)], .vendors vs) ∧ vs.length = 200 :=
  fetch_vendors_paginates "Acme" ⟨[("acme", "k1")], []⟩ _ "k1"
    (List.replicate 100 []) (List.replicate 100 [])
    (by decide) (by decide) rfl rfl rfl (by simp) (by simp)

/-- C6: when page 1 returns records but page 2 raises a transport error, the
fetch aborts the whole organization: exactly two requests are issued, the
result is the empty dict, and the page-1 records are discarded — no partial
result, no retry. -/
theorem fetch_aborts_on_transport_error (org : String) (cfg : ZenotiConfig) (api : VendorApi)
    (key : String) (b1 : ApiBody) (n : Nat)
    (hkey : getKeyS (strLower org) cfg.org_to_api_key = some key) (hne : key ≠ "")
    (h1 : api key 1 100 = .ok b1) (hv : extractVendors b1 ≠ [])
    (h2 : api key 2 100 = .err) :
    fetch_vendors org cfg api (n + 2) = some ([(1, 100), (2, 100)], .empty) := by
  set centers := (getKeyC key cfg.centers_by_key).getD [] with hcen
  have t1 : fetchLoop (api key) centers (n + 2) 1 [] =
      (fetchLoop (api key) centers (n + 1) 2 ([] ++ (extractVendors b1).map (enrichVendor centers))).map
        (fun pr => ((1, 100) :: pr.1, pr.2)) :=
    fetchLoop_step (api key) centers (n + 1) 1 [] b1 h1 hv
  have t2 : fetchLoop (api key) centers (n + 1) 2
      ([] ++ (extractVendors b1).map (enrichVendor centers)) = some ([(2, 100)], .empty) :=
    fetchLoop_err (api key) centers n 2 _ h2
  rw [fetch_vendors_eq_loop org cfg api (n + 2) key hkey hne, ← hcen, t1, t2]
  rfl

/-- Witness for C6: a concrete API failing on page 2 yields two requests and
the empty result. -/
theorem fetch_aborts_on_transport_error_witness :
    fetch_vendors "Acme" ⟨[("acme", "k1")], []⟩
        (fun _ page _ =>
          if page = 1 then .ok ⟨some [[("id", PyVal.int 7)]], Option.none⟩
          else .err) 3 =
      some ([(1, 100), (2, 100)], .empty) :=
  fetch_aborts_on_transport_error "Acme" ⟨[("acme", "k1")], []⟩ _ "k1"
    ⟨some [[("id", PyVal.int 7)]], Option.none⟩ 1
    (by decide) (by decide) rfl (by rw [extractVendors_some _ _ (by simp)]; simp) rfl

/-- C10: when the very first page is empty (and no transport error occurs),
`fetch_vendors` returns `{'vendors': []}` after a single request — a truthy
dict that carries the `vendors` key — and the report builder's validation
accepts it, producing for that organization an empty table whose only column
is the defaulted `center_name`, instead of aborting. -/
theorem empty_first_page_accepted (org : String) (cfg : ZenotiConfig) (api : VendorApi)
    (key : String) (b : ApiBody) (n : Nat)
    (hkey : getKeyS (strLower org) cfg.org_to_api_key = some key) (hne : key ≠ "")
    (h1 : api key 1 100 = .ok b) (hv : extractVendors b = []) :
    fetch_vendors org cfg api (n + 1) = some ([(1, 100)], .vendors []) ∧
    get_vendors_report [org] cfg api (n + 1) =
      some (.ok [(org, ⟨["center_name"], []⟩)]) := by
  have hfv : fetch_vendors org cfg api (n + 1) = some ([(1, 100)], .vendors []) := by
    rw [fetch_vendors_eq_loop org cfg api (n + 1) key hkey hne]
    exact fetchLoop_emptyPage (api key) _ n 1 [] b h1 hv
  refine ⟨hfv, ?_⟩
  have hvo : validOrgs cfg [org] = [org] := by
    unfold validOrgs
    rw [List.filter_cons]
    simp [hkey]
  have hfa : fetchAll cfg api (n + 1) [org] = some [(org, .vendors [])] := by
    unfold fetchAll
    rw [hfv]
    rfl
  unfold get_vendors_report
  rw [hvo]
  rw [show ([org] : List String).isEmpty = false from rfl]
  simp only [Bool.false_eq_true, if_false]
  rw [hfa]
  rfl

/-- Witness for C10: a concrete API whose first page is empty produces
`{'vendors': []}` from the fetch and a one-sheet report with an empty
`center_name`-only table. -/
theorem empty_first_page_accepted_witness :
    fetch_vendors "Acme" ⟨[("acme", "k1")], []⟩
        (fun _ _ _ => .ok ⟨some [], Option.none⟩) 4 =
      some ([(1, 100)], .vendors []) ∧
    get_vendors_report ["Acme"] ⟨[("acme", "k1")], []⟩
        (fun _ _ _ => .ok ⟨some [], Option.none⟩) 4 =
      some (.ok [("Acme", ⟨["center_name"], []⟩)]) :=
  empty_first_page_accepted "Acme" ⟨[("acme", "k1")], []⟩ _ "k1"
    ⟨some [], Option.none⟩ 3 (by decide) (by decide) rfl rfl

/-- C4: after all fetches complete, if any valid organization's fetch result
is the empty dict (the only fetch result lacking the `vendors` key), the
report builder returns the `ValueError` of line 139 — the whole report is
aborted for all organizations, with no partial result.  The `isSome`
hypothesis only discharges the fuel artifact of the embedding. -/
theorem report_aborts_on_missing_vendors (orgs : List String) (cfg : ZenotiConfig)
    (api : VendorApi) (fuel : Nat) (org : String) (reqs : List (Nat × Nat))
    (hmem : org ∈ validOrgs cfg orgs)
    (hempty : fetch_vendors org cfg api fuel = some (reqs, .empty))
    (hall : ∀ o ∈ validOrgs cfg orgs, (fetch_vendors o cfg api fuel).isSome) :
    ∃ o, get_vendors_report orgs cfg api fuel = some (.error (.noVendorsData o)) := by
  obtain ⟨raw, hraw, hin⟩ := fetchAll_total cfg api fuel (validOrgs cfg orgs) hall
  have hmemr : (org, FetchResult.empty) ∈ raw := hin org reqs .empty hmem hempty
  obtain ⟨o, hval⟩ := validateAll_finds raw ⟨(org, .empty), hmemr, rfl⟩
  refine ⟨o, ?_⟩
  unfold get_vendors_report
  rw [if_neg (by simp [List.isEmpty_iff]; exact List.ne_nil_of_mem hmem)]
  rw [hraw, Option.map_some']
  unfold buildFromRaw
  rw [hval]

/-- Witness for C4: two organizations, "Acme" (whose key reaches a one-page
API) and "Beta" (whose configured API key is the empty string, so its fetch
returns the empty dict): the whole report build fails with the line-139
error rather than skipping "Beta". -/
theorem report_aborts_on_missing_vendors_witness :
    ∃ o, get_vendors_report ["Acme", "Beta"] ⟨[("acme", "k1"), ("beta", "")], []⟩
        (fun _ _ _ => .ok ⟨some [], Option.none⟩) 2 =
      some (.error (.noVendorsData o)) :=
  report_aborts_on_missing_vendors ["Acme", "Beta"] ⟨[("acme", "k1"), ("beta", "")], []⟩
    (fun _ _ _ => .ok ⟨some [], Option.none⟩) 2 "Beta" []
    (by decide)
    (fetch_missing_api_key "Beta" ⟨[("acme", "k1"), ("beta", "")], []⟩
      (fun _ _ _ => .ok ⟨some [], Option.none⟩) 2 (Or.inr (by decide)))
    (by decide)

/-- C5: the report builder keeps exactly the organizations whose lowercased
key is present in `org_to_api_key` (`validOrgs`, the filter of line 125): it
raises the line-128 `ValueError` exactly when that filtered list is empty,
and any successful report carries precisely the filtered organizations, in
order. -/
theorem report_filters_valid_orgs (orgs : List String) (cfg : ZenotiConfig)
    (api : VendorApi) (fuel : Nat) :
    (validOrgs cfg orgs = [] ↔
      get_vendors_report orgs cfg api fuel = some (.error .noValidOrgs)) ∧
    (resultOrgs (get_vendors_report orgs cfg api fuel) = Option.none ∨
      resultOrgs (get_vendors_report orgs cfg api fuel) = some (validOrgs cfg orgs)) := by
  unfold get_vendors_report
  by_cases he : (validOrgs cfg orgs).isEmpty
  · rw [if_pos he]
    refine ⟨⟨fun _ => rfl, fun _ => List.isEmpty_iff.mp he⟩, Or.inl rfl⟩
  · rw [if_neg he]
    have hne : validOrgs cfg orgs ≠ [] := by simpa [List.isEmpty_iff] using he
    cases hfa : fetchAll cfg api fuel (validOrgs cfg orgs) with
    | none =>
      exact ⟨⟨fun h => absurd h hne, fun h => absurd h (by exact fun hh => Option.noConfusion hh)⟩,
        Or.inl rfl⟩
    | some raw =>
      rw [Option.map_some']
      unfold buildFromRaw
      cases hval : validateAll raw with
      | some o =>
        refine ⟨⟨fun h => absurd h hne, fun h => ?_⟩, Or.inl rfl⟩
        exact ReportError.noConfusion (Except.error.inj (Option.some.inj h))
      | none =>
        refine ⟨⟨fun h => absurd h hne, fun h => ?_⟩, Or.inr ?_⟩
        · exact Except.noConfusion (Option.some.inj h)
        · have hfst := fetchAll_fst cfg api fuel _ raw hfa
          show some ((raw.map rowsToFrame).map Prod.fst) = some (validOrgs cfg orgs)
          rw [List.map_map]
          rw [show (Prod.fst ∘ rowsToFrame) = (Prod.fst : String × FetchResult → String) from rfl]
          rw [hfst]

/-- C8 counterexample: run on 2026-10-12, the code's start date is 2026-10-01
(the first day of the month containing yesterday), not 2026-09-01, the first
day of the previous month that the claim describes. -/
theorem default_range_not_prev_month :
    defaultRange ⟨2026, 10, 12⟩ = (⟨2026, 10, 1⟩, ⟨2026, 10, 11⟩) ∧
    prevMonthFirstSpec ⟨2026, 10, 12⟩ = ⟨2026, 9, 1⟩ ∧
    (⟨2026, 10, 1⟩ : Date) ≠ ⟨2026, 9, 1⟩ := by
  refine ⟨by decide, by decide, by decide⟩

/-- C8 amended: the default range runs from the first day of the month
containing yesterday, through yesterday; that start coincides with the first
day of the previous month exactly when the run date is the first of a
month. -/
theorem default_range_amended (d : Date) (h : validDate d) :
    (defaultRange d).2 = yesterdayDate d ∧
    (defaultRange d).1 = ⟨(yesterdayDate d).year, (yesterdayDate d).month, 1⟩ ∧
    ((defaultRange d).1 = prevMonthFirstSpec d ↔ d.day = 1) := by
  obtain ⟨hy, hm1, hm12, hd1, _⟩ := h
  refine ⟨rfl, rfl, ?_⟩
  unfold defaultRange yesterdayDate prevMonthFirstSpec
  by_cases hd : 2 ≤ d.day
  · rw [if_pos hd]
    by_cases hm : 2 ≤ d.month
    · rw [if_pos hm]
      constructor
      · intro he
        have := congrArg Date.month he
        simp at this
        omega
      · intro he; omega
    · rw [if_neg hm]
      constructor
      · intro he
        have := congrArg Date.month he
        simp at this
        omega
      · intro he; omega
  · rw [if_neg hd]
    have hd1' : d.day = 1 := by omega
    by_cases hm : 2 ≤ d.month
    · rw [if_pos hm, if_pos hm]
      simp [hd1']
    · rw [if_neg hm, if_neg hm]
      simp [hd1']

/-- Witness for C8's amended theorem at the run date 2026-03-01: the range is
2026-02-01 (here genuinely the first of the previous month, since the run
date is a first of month) through 2026-02-28. -/
theorem default_range_amended_witness :
    (defaultRange ⟨2026, 3, 1⟩).2 = yesterdayDate ⟨2026, 3, 1⟩ ∧
    (defaultRange ⟨2026, 3, 1⟩).1 =
      ⟨(yesterdayDate ⟨2026, 3, 1⟩).year, (yesterdayDate ⟨2026, 3, 1⟩).month, 1⟩ ∧
    ((defaultRange ⟨2026, 3, 1⟩).1 = prevMonthFirstSpec ⟨2026, 3, 1⟩ ↔
      (Date.mk 2026 3 1).day = 1) :=
  default_range_amended ⟨2026, 3, 1⟩ (by refine ⟨?_, ?_, ?_, ?_, ?_⟩ <;> decide)

/-- C9: `export_orgs_to_excel` never propagates a failure: whatever the sheet
writer does, the exporter returns normally, and when the write fails the
error is only recorded in the log line built around the output path. -/
theorem export_swallows_errors (data : List (String × Frame))
    (writeSheet : String → Frame → Except String Unit)
    (output_dir report_name date_str : String) :
    (∃ logs, export_orgs_to_excel data writeSheet output_dir report_name date_str =
      Except.ok logs) ∧
    (∀ e, writeSheets writeSheet data = .error e →
      export_orgs_to_excel data writeSheet output_dir report_name date_str =
        Except.ok ["Error saving to Excel file " ++
          (output_dir ++ "/" ++ report_name ++ "_" ++ date_str ++ ".xlsx") ++ ": " ++ e]) := by
  unfold export_orgs_to_excel
  constructor
  · cases hw : writeSheets writeSheet data with
    | ok u => exact ⟨_, rfl⟩
    | error e => exact ⟨_, rfl⟩
  · intro e hw
    rw [hw]

/-- Witness for C9: a writer that fails with "disk full" still yields a
normal return, carrying only the log line. -/
theorem export_swallows_errors_witness :
    export_orgs_to_excel [("acme", ⟨[], []⟩)] (fun _ _ => Except.error "disk full")
        "out" "vendors" "2026-10-11" =
      Except.ok ["Error saving to Excel file out/vendors_2026-10-11.xlsx: disk full"] := by
  have h := (export_swallows_errors [("acme", ⟨[], []⟩)] (fun _ _ => Except.error "disk full")
    "out" "vendors" "2026-10-11").2 "disk full" rfl
  rw [h]
  rfl

end VendorReport
